import Mathlib

/-!
Verification of the gemini_ai_agent orchestration core.

This file gives a shallow embedding, in Lean 4, of the
Generation-Retry-Tool-Dispatch loop, the message normalizer, the tool
registry, the conversation/session persistence layer and the metrics
accumulator of the repository, and proves (or refutes) the frozen claims
about them.

Modelling conventions:
* Python dictionaries with a fixed key set become Lean structures;
  dictionaries with open key sets become association lists.
* Python `datetime` values are represented by their ISO-format string
  (a bijective representation), so `isoformat`/`fromisoformat` become the
  identity on that representation.
* Tool functions may raise; a tool is embedded as a function returning
  `Except String String` (error message or stringifiable result).
* The remote Gemini service is an oracle `Nat → GatewayOutcome` giving the
  outcome of the n-th `generate_content` invocation of a request: either a
  response object or a raised exception.
* Logging, sleeping and wall-clock measurement are effect-free in the
  model; elapsed times enter as explicit rational parameters.
-/

namespace Gemini

/-! ## Data model: parts, contents, tool calls (google.genai types) -/

/-- Payload of a function-response part: the source builds either
`{"result": result}` or `{"error": message}`. -/
inductive FRPayload where
  | result (v : String)
  | error (e : String)
deriving DecidableEq, Repr

/-- Model of `types.FunctionResponse`. -/
structure FuncResponse where
  name : String
  response : FRPayload
deriving DecidableEq, Repr

/-- Model of `types.Part`: optional text, optional function response. -/
structure Part where
  text : Option String
  functionResponse : Option FuncResponse
deriving DecidableEq, Repr

/-- Model of `types.Content`: a role together with a list of parts. -/
structure Content where
  role : String
  parts : List Part
deriving DecidableEq, Repr

/-- Model of a function call requested by the model: name and arguments
(`function_call.args` is a flat key/value mapping). -/
structure ToolCall where
  name : String
  args : List (String × String)
deriving DecidableEq, Repr

/-- Model of `Part.from_function_response(name=..., response=...)`. -/
def partFromFunctionResponse (name : String) (payload : FRPayload) : Part :=
  ⟨none, some ⟨name, payload⟩⟩

/-! ## Metrics (src/src/agent.py, `self.metrics`) -/

/-- The metrics dictionary created in `Agent.__init__`. -/
structure Metrics where
  total_requests : Nat
  successful_requests : Nat
  failed_requests : Nat
  total_tokens : Nat
  function_calls : Nat
  average_response_time : Rat
deriving DecidableEq, Repr

/-- All counters start at zero. -/
def initialMetrics : Metrics := ⟨0, 0, 0, 0, 0, 0⟩

/-! ## Tool registry and dispatch (src/src/agent.py, `_handle_function_calls`)

`self.tool_functions` is a name → function map; a tool either returns a
stringifiable result or raises.  We embed the registry as
`String → Option (List (String × String) → Except String String)`. -/

/-- The registry: `self.tool_functions` as a partial map from names to
fallible functions. -/
def Registry : Type :=
  String → Option (List (String × String) → Except String String)

/-- Dispatch of a single function call, embedding the body of the `for`
loop of `_handle_function_calls` (src/src/agent.py lines 286-319):
unknown name → error part; raised error → error part; normal return →
result part.  This function is total: no exception escapes. -/
def dispatchOne (reg : Registry) (call : ToolCall) : Part :=
  match reg call.name with
  | some f =>
    match f call.args with
    | Except.ok v => partFromFunctionResponse call.name (FRPayload.result v)
    | Except.error e => partFromFunctionResponse call.name (FRPayload.error e)
  | none =>
    partFromFunctionResponse call.name
      (FRPayload.error ("Unknown function: " ++ call.name))

/-- Embedding of `_handle_function_calls`: iterate over the batch,
incrementing the `function_calls` metric once per call and producing one
response part per call, in input order (the Python loop appends to a
`responses` list; the recursion below builds the same list). -/
def handleFunctionCalls (reg : Registry) :
    List ToolCall → Metrics → Metrics × List Part
  | [], m => (m, [])
  | call :: rest, m =>
    let m1 : Metrics := {m with function_calls := m.function_calls + 1}
    let tail := handleFunctionCalls reg rest m1
    (tail.1, dispatchOne reg call :: tail.2)

/-! Helper lemmas about `handleFunctionCalls`. -/

lemma handleFunctionCalls_snd (reg : Registry) (calls : List ToolCall)
    (m : Metrics) :
    (handleFunctionCalls reg calls m).2 = calls.map (dispatchOne reg) := by
  induction calls generalizing m with
  | nil => rfl
  | cons c cs ih => simp [handleFunctionCalls, ih]

lemma handleFunctionCalls_fst (reg : Registry) (calls : List ToolCall)
    (m : Metrics) :
    (handleFunctionCalls reg calls m).1
      = {m with function_calls := m.function_calls + calls.length} := by
  induction calls generalizing m with
  | nil => simp [handleFunctionCalls]
  | cons c cs ih =>
    simp [handleFunctionCalls, ih]
    omega

/-- Claim C3: for every tool-call batch of length n (duplicate names included),
dispatching the batch produces exactly n results, one per call, in input
order: the loop of `_handle_function_calls` yields precisely the pointwise
dispatch of the input list, so its length is the batch length and its i-th
element is the response for the i-th call, independently of individual
successes or failures. -/
theorem handle_function_calls_one_result_per_call (reg : Registry)
    (calls : List ToolCall) (m : Metrics) :
    (handleFunctionCalls reg calls m).2 = calls.map (dispatchOne reg)
    ∧ (handleFunctionCalls reg calls m).2.length = calls.length := by
  refine ⟨handleFunctionCalls_snd reg calls m, ?_⟩
  rw [handleFunctionCalls_snd reg calls m]
  exact List.length_map _ _

/-- Claim C4: tool dispatch is total and case-complete: an unknown name yields a
failure part naming the unknown tool, a raising tool yields a failure part
with the raised message, and a normally returning tool yields a success
part wrapping the value.  (Totality is witnessed by `dispatchOne` being a
total Lean function into `Part`.) -/
theorem dispatch_total_cases (reg : Registry) (call : ToolCall) :
    (reg call.name = none →
      dispatchOne reg call
        = partFromFunctionResponse call.name
            (FRPayload.error ("Unknown function: " ++ call.name)))
    ∧ (∀ f e, reg call.name = some f → f call.args = Except.error e →
      dispatchOne reg call
        = partFromFunctionResponse call.name (FRPayload.error e))
    ∧ (∀ f v, reg call.name = some f → f call.args = Except.ok v →
      dispatchOne reg call
        = partFromFunctionResponse call.name (FRPayload.result v)) := by
  refine ⟨?_, ?_, ?_⟩
  · intro h; simp [dispatchOne, h]
  · intro f e hf he; simp [dispatchOne, hf, he]
  · intro f v hf hv; simp [dispatchOne, hf, hv]

/-- A registry with a single tool `echo` that succeeds, used by witnesses. -/
def regEx : Registry := fun n =>
  if n = "echo" then some (fun _ => Except.ok "ok") else none

/-- A registry whose only tool `boom` always raises, used by witnesses. -/
def regErr : Registry := fun n =>
  if n = "boom" then some (fun _ => Except.error "kaput") else none

/-- Witness for C4: the three cases evaluated at concrete calls. -/
theorem dispatch_total_cases_witness :
    dispatchOne regEx ⟨"missing", []⟩
      = partFromFunctionResponse "missing"
          (FRPayload.error ("Unknown function: " ++ "missing"))
    ∧ dispatchOne regErr ⟨"boom", []⟩
      = partFromFunctionResponse "boom" (FRPayload.error "kaput")
    ∧ dispatchOne regEx ⟨"echo", []⟩
      = partFromFunctionResponse "echo" (FRPayload.result "ok") :=
  ⟨(dispatch_total_cases regEx ⟨"missing", []⟩).1 rfl,
   (dispatch_total_cases regErr ⟨"boom", []⟩).2.1 _ "kaput" rfl rfl,
   (dispatch_total_cases regEx ⟨"echo", []⟩).2.2 _ "ok" rfl rfl⟩

/-! ## Conversation data model (src/src/conversation.py)

A `Message` dataclass holds role, content, timestamp, metadata and a
message id.  `datetime` values are represented by their ISO-format string;
uuid generation is an external effect, so freshly created messages in the
loop model carry an explicitly supplied (possibly empty) id. -/

/-- The `Message` dataclass. -/
structure Message where
  role : String
  content : String
  timestamp : String
  metadata : List (String × String)
  message_id : String
deriving DecidableEq, Repr

/-- Construction of a new `Message(role=..., content=..., metadata=...)`;
`now` stands for `datetime.now()` and the generated uuid is left empty in
the model (ids play no role in the loop claims). -/
def mkMessage (role content now : String) (md : List (String × String)) :
    Message :=
  ⟨role, content, now, md, ""⟩

/-- Python slice `messages[-max_messages:] if messages else []` from
`ConversationSession.get_context_window`.  Note the Python quirk: a slice
`[-0:]` is the whole list. -/
def getContextWindow (msgs : List Message) (maxMessages : Nat) :
    List Message :=
  if msgs = [] then []
  else if maxMessages = 0 then msgs
  else msgs.drop (msgs.length - maxMessages)

/-- Embedding of `ConversationManager.get_context` (src/src/conversation.py
lines 202-220): take the context window and forward only messages whose
stored role is already `"user"` or `"model"`, as single-text-part
contents. -/
def get_context (session : List Message) (maxMessages : Nat) :
    List Content :=
  (getContextWindow session maxMessages).filterMap fun msg =>
    if msg.role = "user" ∨ msg.role = "model" then
      some ⟨msg.role, [⟨some msg.content, none⟩]⟩
    else none

/-- Embedding of `_prepare_messages` from src/src/agent.py lines 162-179:
optional context (window of 10) followed by the raw user input as a
user-role text message. -/
def prepareMessagesSrc (enableHistory : Bool) (session : List Message)
    (userInput : String) : List Content :=
  (if enableHistory then get_context session 10 else [])
    ++ [⟨"user", [⟨some userInput, none⟩]⟩]

/-! ## The Generation-Retry-Tool-Dispatch loop (src/src/agent.py)

The remote service is modelled as an oracle giving the outcome of the n-th
`generate_content` invocation within one request: a response (candidates,
function calls, text, optional token usage) or a raised exception. -/

/-- A gateway response as the loop consumes it. -/
structure GenResponse where
  candidates : List Content
  functionCalls : List ToolCall
  text : Option String
  usage : Option (Nat × Nat)
deriving DecidableEq, Repr

/-- Outcome of one `generate_content` call: a response or an exception. -/
inductive GatewayOutcome where
  | ok (r : GenResponse)
  | exn (e : String)
deriving DecidableEq, Repr

/-- The gateway oracle: outcome of the n-th generate call of a request. -/
def Oracle : Type := Nat → GatewayOutcome

/-- Token-usage accounting (src/src/agent.py lines 217-221): missing usage
metadata adds nothing. -/
def addUsage (m : Metrics) (u : Option (Nat × Nat)) : Metrics :=
  match u with
  | some pc => {m with total_tokens := m.total_tokens + pc.1 + pc.2}
  | none => m

/-- Mutable state threaded through `_generate_with_retry`: the working
message list, the conversation session, the metrics dictionary, and the
number of generate calls made so far (which also indexes the oracle). -/
structure LoopSt where
  messages : List Content
  session : List Message
  metrics : Metrics
  genCalls : Nat
deriving Repr

/-- How one pass of the inner retry loop ends. -/
inductive InnerExit where
  | retText (t : String)
  | nextIter
  | raised (e : String)
deriving DecidableEq, Repr

/-- The fixed fallback string of `_generate_with_retry` (line 258). -/
def fallbackMessage : String :=
  "I couldn" ++ (Char.ofNat 39).toString
    ++ "t generate a complete response. Please try rephrasing your request."

/-- The inner `for attempt in range(retry_attempts)` loop of
`_generate_with_retry` (src/src/agent.py lines 200-255), with
`attemptsLeft` counting the attempts still available.  Per attempt: consult
the oracle; on an exception, re-raise on the last attempt and otherwise
retry (the backoff sleep is effect-free here); on a response, record token
usage, append the candidate contents to the working messages, then — and
this mirrors the source exactly — if the response carries function calls,
dispatch them, append the synthetic user message, and `continue`, which in
Python re-enters this *inner* loop; otherwise return truthy text, or
`break` to the next outer iteration. -/
def attemptLoop (oracle : Oracle) (reg : Registry) (now : String) :
    Nat → LoopSt → LoopSt × InnerExit
  | 0, st => (st, InnerExit.nextIter)
  | n + 1, st =>
    match oracle st.genCalls with
    | GatewayOutcome.exn e =>
      let st1 : LoopSt := {st with genCalls := st.genCalls + 1}
      if n = 0 then (st1, InnerExit.raised e)
      else attemptLoop oracle reg now n st1
    | GatewayOutcome.ok r =>
      let st1 : LoopSt :=
        {st with genCalls := st.genCalls + 1,
                 metrics := addUsage st.metrics r.usage,
                 messages := st.messages ++ r.candidates}
      if r.functionCalls = [] then
        match r.text with
        | some t =>
          if t = "" then (st1, InnerExit.nextIter)
          else
            ({st1 with
                session := st1.session ++ [mkMessage "assistant" t now []]},
             InnerExit.retText t)
        | none => (st1, InnerExit.nextIter)
      else
        let hfc := handleFunctionCalls reg r.functionCalls st1.metrics
        let st2 : LoopSt :=
          {st1 with
             metrics := hfc.1,
             messages :=
               if hfc.2 = [] then st1.messages
               else st1.messages ++ [⟨"user", hfc.2⟩]}
        attemptLoop oracle reg now n st2

/-- The outer `for iteration in range(max_iterations)` loop of
`_generate_with_retry` (lines 199-258): when the budget runs out, the
fixed fallback string is returned as a normal value; a re-raised gateway
exception propagates as `Except.error`. -/
def iterLoop (oracle : Oracle) (reg : Registry) (now : String)
    (retryAttempts : Nat) : Nat → LoopSt → LoopSt × Except String String
  | 0, st => (st, Except.ok fallbackMessage)
  | n + 1, st =>
    match attemptLoop oracle reg now retryAttempts st with
    | (st1, InnerExit.retText t) => (st1, Except.ok t)
    | (st1, InnerExit.nextIter) =>
      iterLoop oracle reg now retryAttempts n st1
    | (st1, InnerExit.raised e) => (st1, Except.error e)

/-- Embedding of `_generate_with_retry`. -/
def generateWithRetry (oracle : Oracle) (reg : Registry) (now : String)
    (maxIterations retryAttempts : Nat) (st : LoopSt) :
    LoopSt × Except String String :=
  iterLoop oracle reg now retryAttempts maxIterations st

/-! ## Metrics updates (C7) -/

/-- Embedding of `_update_metrics` from src/src/agent.py lines 323-333 in
the success case.  Crucially, `process_request` calls this *before*
incrementing `successful_requests`, so `total_successful` here is the
count of previously successful requests. -/
def updateMetricsSrc (m : Metrics) (elapsed : Rat) : Metrics :=
  if 0 < m.successful_requests then
    {m with average_response_time :=
      (m.average_response_time * ((m.successful_requests : Rat) - 1)
        + elapsed) / (m.successful_requests : Rat)}
  else
    {m with average_response_time := elapsed}

/-- The metric effect of one successful pass through `process_request`
(src/src/agent.py lines 140 and 150): `_update_metrics` followed by the
`successful_requests` increment. -/
def recordSuccessSrc (m : Metrics) (elapsed : Rat) : Metrics :=
  let m1 := updateMetricsSrc m elapsed
  {m1 with successful_requests := m1.successful_requests + 1}

/-- Embedding of `_update_metrics` from ai_agent/src/agent.py lines
504-512: this variant pre-adds one to the stale success count
(`total_successful = successful_requests + 1`). -/
def updateMetricsAi (m : Metrics) (elapsed : Rat) : Metrics :=
  {m with average_response_time :=
    (m.average_response_time * (((m.successful_requests + 1 : Nat) : Rat) - 1)
      + elapsed) / ((m.successful_requests + 1 : Nat) : Rat)}

/-- The metric effect of one successful pass through the ai_agent variant
of `process_request` (ai_agent/src/agent.py lines 196 and 206). -/
def recordSuccessAi (m : Metrics) (elapsed : Rat) : Metrics :=
  let m1 := updateMetricsAi m elapsed
  {m1 with successful_requests := m1.successful_requests + 1}

/-! ## The request boundary (src/src/agent.py, `process_request`) -/

/-- The degraded error reply of the `except` branch (line 157). -/
def errorReply (e : String) : String :=
  "I encountered an error: " ++ e ++ ". Please try again."

/-- Embedding of `process_request` (src/src/agent.py lines 108-160):
count the request, append the user message, prepare messages, run the
loop; on a normal return update the success metrics and return the text,
on a propagated exception count a failure, record the degraded reply in
the conversation, and return it.  Logging and session persistence are
effect-free in the model.  Returns (session, metrics, reply). -/
def process_request (oracle : Oracle) (reg : Registry)
    (maxIterations retryAttempts : Nat) (enableHistory : Bool)
    (now : String) (session : List Message) (m : Metrics)
    (userInput : String) (ctx : List (String × String)) (elapsed : Rat) :
    List Message × Metrics × String :=
  let m0 : Metrics := {m with total_requests := m.total_requests + 1}
  let session1 := session ++ [mkMessage "user" userInput now ctx]
  let msgs := prepareMessagesSrc enableHistory session1 userInput
  let run := generateWithRetry oracle reg now maxIterations retryAttempts
    ⟨msgs, session1, m0, 0⟩
  match run.2 with
  | Except.ok response =>
    let m1 := recordSuccessSrc run.1.metrics elapsed
    (run.1.session, m1, response)
  | Except.error e =>
    let m1 : Metrics :=
      {run.1.metrics with
         failed_requests := run.1.metrics.failed_requests + 1}
    (run.1.session ++ [mkMessage "assistant" (errorReply e) now [("error", e)]],
     m1, errorReply e)

/-! ## C1: the iteration budget -/

/-- A response carrying one tool call and no text. -/
def toolOnlyResponse : GenResponse := ⟨[], [⟨"list_files", []⟩], none, none⟩

/-- A gateway that answers every call with a tool-call response. -/
def toolOnlyOracle : Oracle := fun _ => GatewayOutcome.ok toolOnlyResponse

/-- The loop state at the start of a request with no history. -/
def emptyLoopSt : LoopSt := ⟨[], [], initialMetrics, 0⟩

/-- Claim C1: with `max_iterations = 1` and `retry_attempts = 2`, a gateway that
returns tool calls on every round makes the loop perform 2 generate
calls — more than `max_iterations`.  The `continue` after tool dispatch
re-enters the inner retry loop (Python `continue` binds to the innermost
loop), contrary to the adjacent comment "Continue to next iteration", so a
single request can consume up to `max_iterations * retry_attempts`
gateway round-trips. -/
theorem loop_exceeds_iteration_budget :
    (generateWithRetry toolOnlyOracle regEx "" 1 2 emptyLoopSt).1.genCalls = 2
    ∧ ¬ (generateWithRetry toolOnlyOracle regEx "" 1 2
          emptyLoopSt).1.genCalls ≤ 1 := by
  have h : (generateWithRetry toolOnlyOracle regEx "" 1 2
      emptyLoopSt).1.genCalls = 2 := rfl
  exact ⟨h, by rw [h]; omega⟩

/-! ## C7: the incremental average -/

/-- Claim C7: after three successful requests with elapsed times 2, 4 and 6
seconds, the src/src/agent.py metrics hold `average_response_time = 5`
(the update reads `successful_requests` before `process_request`
increments it, so each division uses a count that is one too small), while
the ai_agent/src/agent.py variant — matching the specified incremental
mean — holds exactly 4. -/
theorem average_response_time_divergence :
    (([2, 4, 6] : List Rat).foldl recordSuccessSrc
        initialMetrics).average_response_time = 5
    ∧ (([2, 4, 6] : List Rat).foldl recordSuccessAi
        initialMetrics).average_response_time = 4 := by
  constructor <;>
    norm_num [List.foldl, recordSuccessSrc, updateMetricsSrc,
      recordSuccessAi, updateMetricsAi, initialMetrics]

/-! ## C5: tool calls take priority over accompanying text -/

lemma attemptLoop_retText_origin (oracle : Oracle) (reg : Registry)
    (now : String) :
    ∀ (a : Nat) (st st' : LoopSt) (t : String),
      attemptLoop oracle reg now a st = (st', InnerExit.retText t) →
      ∃ i r, oracle i = GatewayOutcome.ok r ∧ r.functionCalls = []
        ∧ r.text = some t ∧ t ≠ "" := by
  intro a
  induction a with
  | zero =>
    intro st st' t h
    simp [attemptLoop] at h
  | succ n ih =>
    intro st st' t h
    cases hor : oracle st.genCalls with
    | exn e =>
      simp only [attemptLoop, hor] at h
      by_cases hn : n = 0
      · simp [hn] at h
      · simp only [hn, if_neg, ite_false] at h
        exact ih _ _ _ h
    | ok r =>
      simp only [attemptLoop, hor] at h
      by_cases hfc : r.functionCalls = []
      · simp only [if_pos hfc] at h
        cases ht : r.text with
        | none => rw [ht] at h; simp at h
        | some t0 =>
          rw [ht] at h
          by_cases ht0 : t0 = ""
          · simp [ht0] at h
          · simp only [ht0, ite_false, Prod.mk.injEq,
              InnerExit.retText.injEq] at h
            obtain ⟨-, rfl⟩ := h
            exact ⟨st.genCalls, r, hor, hfc, ht, ht0⟩
      · simp only [if_neg hfc] at h
        exact ih _ _ _ h

lemma iterLoop_ok_origin (oracle : Oracle) (reg : Registry) (now : String)
    (retryAttempts : Nat) :
    ∀ (n : Nat) (st st' : LoopSt) (t : String),
      iterLoop oracle reg now retryAttempts n st = (st', Except.ok t) →
      t = fallbackMessage
      ∨ ∃ i r, oracle i = GatewayOutcome.ok r ∧ r.functionCalls = []
          ∧ r.text = some t ∧ t ≠ "" := by
  intro n
  induction n with
  | zero =>
    intro st st' t h
    simp only [iterLoop, Prod.mk.injEq, Except.ok.injEq] at h
    exact Or.inl h.2.symm
  | succ k ih =>
    intro st st' t h
    cases hA : attemptLoop oracle reg now retryAttempts st with
    | mk st1 ex =>
      simp only [iterLoop, hA] at h
      cases ex with
      | retText t0 =>
        simp only [Prod.mk.injEq, Except.ok.injEq] at h
        obtain ⟨-, rfl⟩ := h
        exact Or.inr (attemptLoop_retText_origin oracle reg now _ _ _ _ hA)
      | nextIter => exact ih st1 st' t h
      | raised e => simp at h

/-- Claim C5: whenever the loop returns a final text, that text is either the
fixed fallback constant or originates from a gateway response that carried
no tool calls; in particular, the text accompanying a tool-call response
is never returned as the final answer of the request (the loop dispatches
the tools and keeps going instead). -/
theorem final_text_from_tool_free_response (oracle : Oracle)
    (reg : Registry) (now : String) (maxIterations retryAttempts : Nat)
    (st st' : LoopSt) (t : String)
    (h : generateWithRetry oracle reg now maxIterations retryAttempts st
          = (st', Except.ok t)) :
    t = fallbackMessage
    ∨ ∃ i r, oracle i = GatewayOutcome.ok r ∧ r.functionCalls = []
        ∧ r.text = some t ∧ t ≠ "" :=
  iterLoop_ok_origin oracle reg now retryAttempts maxIterations st st' t h

/-- A gateway that first answers with tool calls *and* text, then with a
pure text response. -/
def w5oracle : Oracle := fun i =>
  if i = 0 then
    GatewayOutcome.ok ⟨[], [⟨"list_files", []⟩], some "note", none⟩
  else GatewayOutcome.ok ⟨[], [], some "done", none⟩

/-- Witness for C5: on `w5oracle` the loop returns "done" — the text of
the tool-free response — and the theorem locates its origin. -/
theorem final_text_from_tool_free_response_witness :
    "done" = fallbackMessage
    ∨ ∃ i r, w5oracle i = GatewayOutcome.ok r ∧ r.functionCalls = []
        ∧ r.text = some "done" ∧ "done" ≠ "" :=
  final_text_from_tool_free_response w5oracle regEx "" 3 3 emptyLoopSt
    (generateWithRetry w5oracle regEx "" 3 3 emptyLoopSt).1 "done" (by rfl)

/-! ## C6: budget exhaustion is a recovered outcome -/

lemma addUsage_successful (m : Metrics) (u : Option (Nat × Nat)) :
    (addUsage m u).successful_requests = m.successful_requests := by
  cases u <;> rfl

lemma addUsage_failed (m : Metrics) (u : Option (Nat × Nat)) :
    (addUsage m u).failed_requests = m.failed_requests := by
  cases u <;> rfl

lemma handleFunctionCalls_successful (reg : Registry)
    (calls : List ToolCall) (m : Metrics) :
    (handleFunctionCalls reg calls m).1.successful_requests
      = m.successful_requests := by
  rw [handleFunctionCalls_fst]

lemma handleFunctionCalls_failed (reg : Registry)
    (calls : List ToolCall) (m : Metrics) :
    (handleFunctionCalls reg calls m).1.failed_requests
      = m.failed_requests := by
  rw [handleFunctionCalls_fst]

lemma attemptLoop_sf (oracle : Oracle) (reg : Registry) (now : String) :
    ∀ (a : Nat) (st : LoopSt),
      (attemptLoop oracle reg now a st).1.metrics.successful_requests
          = st.metrics.successful_requests
      ∧ (attemptLoop oracle reg now a st).1.metrics.failed_requests
          = st.metrics.failed_requests := by
  intro a
  induction a with
  | zero => intro st; exact ⟨rfl, rfl⟩
  | succ n ih =>
    intro st
    cases hor : oracle st.genCalls with
    | exn e =>
      simp only [attemptLoop, hor]
      by_cases hn : n = 0
      · simp [hn]
      · simpa [hn] using ih _
    | ok r =>
      simp only [attemptLoop, hor]
      by_cases hfc : r.functionCalls = []
      · simp only [if_pos hfc]
        cases ht : r.text with
        | none => simp [addUsage_successful, addUsage_failed]
        | some t0 =>
          by_cases ht0 : t0 = "" <;>
            simp [ht0, addUsage_successful, addUsage_failed]
      · simp only [if_neg hfc]
        refine ⟨?_, ?_⟩
        · rw [(ih _).1]
          simp [handleFunctionCalls_successful, addUsage_successful]
        · rw [(ih _).2]
          simp [handleFunctionCalls_failed, addUsage_failed]

lemma iterLoop_sf (oracle : Oracle) (reg : Registry) (now : String)
    (retryAttempts : Nat) :
    ∀ (n : Nat) (st : LoopSt),
      (iterLoop oracle reg now retryAttempts n st).1.metrics.successful_requests
          = st.metrics.successful_requests
      ∧ (iterLoop oracle reg now retryAttempts n st).1.metrics.failed_requests
          = st.metrics.failed_requests := by
  intro n
  induction n with
  | zero => intro st; exact ⟨rfl, rfl⟩
  | succ k ih =>
    intro st
    have hsf := attemptLoop_sf oracle reg now retryAttempts st
    cases hA : attemptLoop oracle reg now retryAttempts st with
    | mk st1 ex =>
      rw [hA] at hsf
      cases ex with
      | retText t0 => simpa [iterLoop, hA] using hsf
      | nextIter =>
        simp only [iterLoop, hA]
        exact ⟨(ih st1).1.trans hsf.1, (ih st1).2.trans hsf.2⟩
      | raised e => simpa [iterLoop, hA] using hsf

lemma attemptLoop_toolsOnly (oracle : Oracle) (reg : Registry)
    (now : String)
    (H : ∀ i, ∃ r, oracle i = GatewayOutcome.ok r ∧ r.functionCalls ≠ []) :
    ∀ (a : Nat) (st : LoopSt),
      (attemptLoop oracle reg now a st).2 = InnerExit.nextIter := by
  intro a
  induction a with
  | zero => intro st; rfl
  | succ n ih =>
    intro st
    obtain ⟨r, hr, hne⟩ := H st.genCalls
    simp only [attemptLoop, hr, if_neg hne]
    exact ih _

lemma iterLoop_toolsOnly (oracle : Oracle) (reg : Registry) (now : String)
    (retryAttempts : Nat)
    (H : ∀ i, ∃ r, oracle i = GatewayOutcome.ok r ∧ r.functionCalls ≠ []) :
    ∀ (n : Nat) (st : LoopSt),
      (iterLoop oracle reg now retryAttempts n st).2
        = Except.ok fallbackMessage := by
  intro n
  induction n with
  | zero => intro st; rfl
  | succ k ih =>
    intro st
    have h2 := attemptLoop_toolsOnly oracle reg now H retryAttempts st
    cases hA : attemptLoop oracle reg now retryAttempts st with
    | mk st1 ex =>
      rw [hA] at h2
      simp only at h2
      subst h2
      simp only [iterLoop, hA]
      exact ih st1

lemma updateMetricsSrc_successful (m : Metrics) (e : Rat) :
    (updateMetricsSrc m e).successful_requests = m.successful_requests := by
  unfold updateMetricsSrc; split <;> rfl

lemma updateMetricsSrc_failed (m : Metrics) (e : Rat) :
    (updateMetricsSrc m e).failed_requests = m.failed_requests := by
  unfold updateMetricsSrc; split <;> rfl

lemma recordSuccessSrc_successful (m : Metrics) (e : Rat) :
    (recordSuccessSrc m e).successful_requests
      = m.successful_requests + 1 := by
  simp [recordSuccessSrc, updateMetricsSrc_successful]

lemma recordSuccessSrc_failed (m : Metrics) (e : Rat) :
    (recordSuccessSrc m e).failed_requests = m.failed_requests := by
  simp [recordSuccessSrc, updateMetricsSrc_failed]

/-- Claim C6: if the gateway answers every generate call of the request with a
tool-call response (so the iteration budget is exhausted without any final
text), `process_request` returns the fixed fallback string, counts the
request as successful, and leaves `failed_requests` unchanged. -/
theorem exhausted_budget_returns_fallback (oracle : Oracle)
    (reg : Registry) (maxIterations retryAttempts : Nat)
    (enableHistory : Bool) (now : String) (session : List Message)
    (m : Metrics) (userInput : String) (ctx : List (String × String))
    (elapsed : Rat)
    (H : ∀ i, ∃ r, oracle i = GatewayOutcome.ok r ∧ r.functionCalls ≠ []) :
    (process_request oracle reg maxIterations retryAttempts enableHistory
        now session m userInput ctx elapsed).2.2 = fallbackMessage
    ∧ (process_request oracle reg maxIterations retryAttempts enableHistory
        now session m userInput ctx elapsed).2.1.successful_requests
      = m.successful_requests + 1
    ∧ (process_request oracle reg maxIterations retryAttempts enableHistory
        now session m userInput ctx elapsed).2.1.failed_requests
      = m.failed_requests := by
  unfold process_request generateWithRetry
  have hok := iterLoop_toolsOnly oracle reg now retryAttempts H
    maxIterations
    ⟨prepareMessagesSrc enableHistory
        (session ++ [mkMessage "user" userInput now ctx]) userInput,
      session ++ [mkMessage "user" userInput now ctx],
      {m with total_requests := m.total_requests + 1}, 0⟩
  have hsf := iterLoop_sf oracle reg now retryAttempts maxIterations
    ⟨prepareMessagesSrc enableHistory
        (session ++ [mkMessage "user" userInput now ctx]) userInput,
      session ++ [mkMessage "user" userInput now ctx],
      {m with total_requests := m.total_requests + 1}, 0⟩
  cases hA : iterLoop oracle reg now retryAttempts maxIterations
      ⟨prepareMessagesSrc enableHistory
          (session ++ [mkMessage "user" userInput now ctx]) userInput,
        session ++ [mkMessage "user" userInput now ctx],
        {m with total_requests := m.total_requests + 1}, 0⟩ with
  | mk st1 res =>
    rw [hA] at hok hsf
    simp only at hok
    subst hok
    simp only [hA]
    simp only at hsf
    refine ⟨trivial, ?_, ?_⟩
    · rw [recordSuccessSrc_successful, hsf.1]
    · rw [recordSuccessSrc_failed, hsf.2]

/-- Witness for C6: concrete all-tool-calls gateway, two iterations, two
attempts, empty initial metrics. -/
theorem exhausted_budget_returns_fallback_witness :
    (process_request toolOnlyOracle regEx 2 2 true "" [] initialMetrics
        "hi" [] 1).2.2 = fallbackMessage
    ∧ (process_request toolOnlyOracle regEx 2 2 true "" [] initialMetrics
        "hi" [] 1).2.1.successful_requests
      = initialMetrics.successful_requests + 1
    ∧ (process_request toolOnlyOracle regEx 2 2 true "" [] initialMetrics
        "hi" [] 1).2.1.failed_requests = initialMetrics.failed_requests :=
  exhausted_budget_returns_fallback toolOnlyOracle regEx 2 2 true "" []
    initialMetrics "hi" [] 1
    (fun _ => ⟨toolOnlyResponse, rfl, by decide⟩)

/-! ## The Message Normalizer (ai_agent/src/agent.py, `_prepare_messages`)

Python `str.strip()` is modelled by removing leading and trailing
whitespace characters from the character list of the string. -/

/-- Strip on character lists: drop leading whitespace, then drop trailing
whitespace (via reversal). -/
def pyStripList (l : List Char) : List Char :=
  ((l.dropWhile Char.isWhitespace).reverse.dropWhile
    Char.isWhitespace).reverse

/-- Model of Python `str.strip()`. -/
def pyStrip (s : String) : String := String.mk (pyStripList s.data)

lemma dropWhile_dropWhile (p : Char → Bool) :
    ∀ l : List Char, (l.dropWhile p).dropWhile p = l.dropWhile p := by
  intro l
  induction l with
  | nil => rfl
  | cons a t ih =>
    by_cases h : p a
    · simp only [List.dropWhile_cons, h, if_pos]
      exact ih
    · simp [List.dropWhile_cons, h]

lemma pyStripList_idem (l : List Char) :
    pyStripList (pyStripList l) = pyStripList l := by
  unfold pyStripList
  set p := Char.isWhitespace with hp
  set m := l.dropWhile p with hm
  have hmfix : m.dropWhile p = m := by rw [hm]; exact dropWhile_dropWhile p l
  set r := (m.reverse.dropWhile p).reverse with hr
  have hrrev : r.reverse = m.reverse.dropWhile p := by rw [hr]; simp
  have hrfix : r.dropWhile p = r := by
    cases hmc : m with
    | nil => rw [hr, hmc]; rfl
    | cons a t =>
      have hpa : ¬ p a = true := by
        intro hpa
        have h1 := hmfix
        rw [hmc] at h1
        rw [List.dropWhile_cons, if_pos hpa] at h1
        have hlen := congrArg List.length h1
        have hle := (List.dropWhile_sublist (l := t) p).length_le
        simp at hlen
        omega
      have : r = a :: (t.reverse.dropWhile p).reverse := by
        rw [hr, hmc]
        simp only [List.reverse_cons]
        rw [List.dropWhile_append]
        by_cases hte : (t.reverse.dropWhile p).isEmpty
        · have htnil : t.reverse.dropWhile p = [] := by
            simpa [List.isEmpty_iff] using hte
          simp [htnil, List.dropWhile_cons, hpa]
        · simp only [hte, if_neg, Bool.false_eq_true, not_false_eq_true,
            ite_false]
          simp
      rw [this, List.dropWhile_cons, if_neg hpa]
  rw [hrfix, hrrev, dropWhile_dropWhile, ← hrrev, List.reverse_reverse]

lemma pyStrip_idem (s : String) : pyStrip (pyStrip s) = pyStrip s := by
  unfold pyStrip
  rw [show (String.mk (pyStripList s.data)).data = pyStripList s.data
        from rfl,
      pyStripList_idem]

/-- Truthiness of `part.text and part.text.strip()`: the part has some
text that is non-empty and does not strip to the empty string. -/
def partHasText (p : Part) : Bool :=
  match p.text with
  | some s => s != "" && pyStrip s != ""
  | none => false

/-- A part is kept/valid when it carries non-blank text or (`elif`) a
function response (ai_agent/src/agent.py lines 245-248 and 319-320). -/
def keepPart (p : Part) : Bool :=
  partHasText p || p.functionResponse.isSome

/-- The final validation predicate of `_prepare_messages` (lines 314-329):
a message passes when its part list is non-empty and at least one part is
valid. -/
def validMsg (msg : Content) : Bool :=
  !msg.parts.isEmpty && msg.parts.any keepPart

/-- Role mapping of the normalizer: assistant → "model", user → "user",
anything else is skipped. -/
def mapGatewayRole (role : String) : Option String :=
  if role = "assistant" then some "model"
  else if role = "user" then some "user"
  else none

/-- A history entry as `_prepare_messages` receives it: a `types.Content`
object, a dict with optional `role`/`content` keys, or any other value
(taken via `str(msg)`). -/
inductive HistMsg where
  | content (c : Content)
  | pydict (role : Option String) (contentVal : Option String)
  | other (s : String)

/-- Conversion of one history entry (ai_agent/src/agent.py lines 226-292):
Content objects keep their valid parts under the mapped role; dicts
contribute a single stripped text part under the mapped role (default role
"user", default content ""); other values are stringified, stripped and
sent as user text; entries with invalid roles or no valid content are
dropped. -/
def convertHistMsg : HistMsg → Option Content
  | HistMsg.content c =>
    match mapGatewayRole c.role with
    | none => none
    | some role =>
      if c.parts.isEmpty then none
      else
        let validParts := c.parts.filter keepPart
        if validParts.isEmpty then none
        else some ⟨role, validParts⟩
  | HistMsg.pydict r cv =>
    match mapGatewayRole (r.getD "user") with
    | none => none
    | some role =>
      let content := cv.getD ""
      if content != "" && pyStrip content != "" then
        some ⟨role, [⟨some (pyStrip content), none⟩]⟩
      else none
  | HistMsg.other s =>
    if pyStrip s != "" then some ⟨"user", [⟨some (pyStrip s), none⟩]⟩
    else none

/-- Embedding of `_prepare_messages` (ai_agent/src/agent.py lines
218-344): convert the history, append the current user input (with the
"Hello" placeholder when the stripped input is empty), validate every
message, and fall back to a single placeholder user message if validation
left nothing. -/
def prepareMessagesAi (history : List HistMsg) (userInput : String) :
    List Content :=
  let converted := history.filterMap convertHistMsg
  let stripped := pyStrip userInput
  let withInput := converted ++
    [if stripped != "" then (⟨"user", [⟨some stripped, none⟩]⟩ : Content)
     else ⟨"user", [⟨some "Hello", none⟩]⟩]
  let validated := withInput.filter validMsg
  if validated.isEmpty then
    [⟨"user", [⟨some (if stripped = "" then "Hello" else stripped),
        none⟩]⟩]
  else validated

/-- The user message appended by the normalizer: the stripped input, or
the "Hello" placeholder when the stripped input is empty. -/
def userMsgOf (userInput : String) : Content :=
  if pyStrip userInput != "" then
    ⟨"user", [⟨some (pyStrip userInput), none⟩]⟩
  else ⟨"user", [⟨some "Hello", none⟩]⟩

lemma validMsg_userMsgOf (userInput : String) :
    validMsg (userMsgOf userInput) = true := by
  by_cases h : pyStrip userInput = ""
  · simp only [userMsgOf, h]
    decide
  · simp only [userMsgOf, validMsg, List.any, keepPart, partHasText,
      List.isEmpty, bne_iff_ne, ne_eq, h, not_false_eq_true, ite_true]
    simp [pyStrip_idem userInput, h]

lemma prepareMessagesAi_eq (history : List HistMsg) (userInput : String) :
    prepareMessagesAi history userInput
      = (history.filterMap convertHistMsg).filter validMsg
        ++ [userMsgOf userInput] := by
  unfold prepareMessagesAi
  have hvm := validMsg_userMsgOf userInput
  by_cases h : pyStrip userInput = ""
  · simp only [h, userMsgOf] at hvm ⊢
    simp only [bne_self_eq_false, Bool.false_eq_true, ite_false] at hvm
    simp [List.filter_append, List.filter_cons, hvm, List.isEmpty_iff]
  · simp only [userMsgOf, h] at hvm ⊢
    simp only [bne_iff_ne, ne_eq, h, not_false_eq_true, ite_true] at hvm ⊢
    simp [List.filter_append, List.filter_cons, hvm, List.isEmpty_iff]

/-- Claim C2: for every history and every user input, the normalizer output is
non-empty and every returned message has at least one valid part
(non-blank text or a function response); when the stripped user input is
empty, the final appended user message carries the fixed placeholder text
"Hello". -/
theorem prepare_messages_nonempty_valid (history : List HistMsg)
    (userInput : String) :
    prepareMessagesAi history userInput ≠ []
    ∧ (∀ msg ∈ prepareMessagesAi history userInput,
        msg.parts.any keepPart = true)
    ∧ (pyStrip userInput = "" →
        (prepareMessagesAi history userInput).getLast?
          = some ⟨"user", [⟨some "Hello", none⟩]⟩) := by
  rw [prepareMessagesAi_eq]
  refine ⟨by simp, ?_, ?_⟩
  · intro msg hmsg
    rcases List.mem_append.1 hmsg with hmem | hmem
    · have := List.of_mem_filter hmem
      simp only [validMsg, Bool.and_eq_true] at this
      exact this.2
    · have : msg = userMsgOf userInput := by simpa using hmem
      subst this
      have := validMsg_userMsgOf userInput
      simp only [validMsg, Bool.and_eq_true] at this
      exact this.2
  · intro hstr
    rw [List.getLast?_concat]
    simp [userMsgOf, hstr]

/-- Witness for C2: empty user input on an empty history yields the single
placeholder message. -/
theorem prepare_messages_nonempty_valid_witness :
    prepareMessagesAi [] "  " ≠ []
    ∧ (prepareMessagesAi [] "  ").getLast?
        = some ⟨"user", [⟨some "Hello", none⟩]⟩ :=
  ⟨(prepare_messages_nonempty_valid [] "  ").1,
   (prepare_messages_nonempty_valid [] "  ").2.2 (by decide)⟩

/-! ## C9: role mapping of stored history -/

/-- Claim C9: when converting a stored history message for the gateway, a
message with internal role "assistant" that still has valid parts is
forwarded under the model-facing role "model"; a "user" message is
forwarded under "user"; a message with any other role is dropped and never
forwarded; and every forwarded message carries one of the two gateway
roles. -/
theorem history_role_mapping (c : Content) :
    (c.role = "assistant" → c.parts.filter keepPart ≠ [] →
      convertHistMsg (HistMsg.content c)
        = some ⟨"model", c.parts.filter keepPart⟩)
    ∧ (c.role = "user" → c.parts.filter keepPart ≠ [] →
      convertHistMsg (HistMsg.content c)
        = some ⟨"user", c.parts.filter keepPart⟩)
    ∧ (c.role ≠ "assistant" → c.role ≠ "user" →
      convertHistMsg (HistMsg.content c) = none)
    ∧ (∀ out, convertHistMsg (HistMsg.content c) = some out →
      out.role = "model" ∨ out.role = "user") := by
  have hparts : ∀ h : c.parts.filter keepPart ≠ [], ¬ c.parts.isEmpty := by
    intro h hempty
    rw [List.isEmpty_iff] at hempty
    rw [hempty] at h
    exact h rfl
  refine ⟨?_, ?_, ?_, ?_⟩
  · intro hrole hfil
    simp [convertHistMsg, mapGatewayRole, hrole, hparts hfil,
      List.isEmpty_iff, hfil]
  · intro hrole hfil
    simp [convertHistMsg, mapGatewayRole, hrole, hparts hfil,
      List.isEmpty_iff, hfil]
  · intro h1 h2
    simp [convertHistMsg, mapGatewayRole, h1, h2]
  · intro out hout
    by_cases h1 : c.role = "assistant"
    · left
      by_cases h2 : c.parts.isEmpty
      · simp [convertHistMsg, mapGatewayRole, h1, h2] at hout
      · by_cases h3 : (c.parts.filter keepPart).isEmpty
        · simp [convertHistMsg, mapGatewayRole, h1, h2, h3] at hout
        · simp [convertHistMsg, mapGatewayRole, h1, h2, h3] at hout
          subst hout
          rfl
    · by_cases h4 : c.role = "user"
      · right
        by_cases h2 : c.parts.isEmpty
        · simp [convertHistMsg, mapGatewayRole, h1, h4, h2] at hout
        · by_cases h3 : (c.parts.filter keepPart).isEmpty
          · simp [convertHistMsg, mapGatewayRole, h1, h4, h2, h3] at hout
          · simp [convertHistMsg, mapGatewayRole, h1, h4, h2, h3] at hout
            subst hout
            rfl
      · simp [convertHistMsg, mapGatewayRole, h1, h4] at hout

/-- Concrete history messages for the C9 witness. -/
def c9AssistantMsg : Content := ⟨"assistant", [⟨some "hi", none⟩]⟩

def c9UserMsg : Content := ⟨"user", [⟨some "yo", none⟩]⟩

def c9SystemMsg : Content := ⟨"system", [⟨some "sys", none⟩]⟩

/-- Witness for C9 at concrete assistant/user/system messages. -/
theorem history_role_mapping_witness :
    convertHistMsg (HistMsg.content c9AssistantMsg)
      = some ⟨"model", c9AssistantMsg.parts.filter keepPart⟩
    ∧ convertHistMsg (HistMsg.content c9UserMsg)
      = some ⟨"user", c9UserMsg.parts.filter keepPart⟩
    ∧ convertHistMsg (HistMsg.content c9SystemMsg) = none :=
  ⟨(history_role_mapping c9AssistantMsg).1 rfl (by decide),
   (history_role_mapping c9UserMsg).2.1 rfl (by decide),
   (history_role_mapping c9SystemMsg).2.2.1 (by decide) (by decide)⟩

/-! ## Session persistence (src/src/conversation.py)

`Message.to_dict`/`from_dict` and `ConversationSession.to_dict`/`from_dict`
map between dataclasses and JSON-serializable dictionaries;
`save_session` writes `json.dump(session.to_dict())` to
`<history_dir>/<session_id>.json` and `get_session` loads it back.  JSON
values are modelled by an explicit inductive; the text layer of
`json.dump`/`json.load` is the identity on such values. -/

/-- The `ConversationSession` dataclass.  `datetime` fields are
represented by their ISO-format strings. -/
structure Session where
  session_id : String
  messages : List Message
  created_at : String
  updated_at : String
  metadata : List (String × String)
deriving DecidableEq, Repr

/-- JSON values as produced by `to_dict` and consumed by `from_dict`. -/
inductive Json where
  | str (s : String)
  | arr (xs : List Json)
  | obj (fields : List (String × Json))

/-- Encoding of a metadata dictionary (opaque string key/values). -/
def encodeMeta (md : List (String × String)) : Json :=
  Json.obj (md.map fun kv => (kv.1, Json.str kv.2))

/-- Decoding of a metadata dictionary. -/
def decodeMeta : Json → Option (List (String × String))
  | Json.obj fields =>
    fields.mapM fun kv =>
      match kv.2 with
      | Json.str v => some (kv.1, v)
      | _ => none
  | _ => none

/-- Embedding of `Message.to_dict` (src/src/conversation.py lines 34-42):
role, content, ISO timestamp, metadata and message id. -/
def messageToDict (msg : Message) : Json :=
  Json.obj
    [("role", Json.str msg.role),
     ("content", Json.str msg.content),
     ("timestamp", Json.str msg.timestamp),
     ("metadata", encodeMeta msg.metadata),
     ("message_id", Json.str msg.message_id)]

/-- Embedding of `Message.from_dict` (lines 44-48): any missing or
ill-typed field raises, which the model renders as `none`. -/
def messageFromDict (j : Json) : Option Message :=
  match j with
  | Json.obj fields =>
    match fields.lookup "role", fields.lookup "content",
        fields.lookup "timestamp", fields.lookup "metadata",
        fields.lookup "message_id" with
    | some (Json.str role), some (Json.str content),
        some (Json.str timestamp), some md, some (Json.str mid) =>
      (decodeMeta md).map fun metadata =>
        ⟨role, content, timestamp, metadata, mid⟩
    | _, _, _, _, _ => none
  | _ => none

/-- Embedding of `ConversationSession.to_dict` (lines 74-82). -/
def sessionToDict (s : Session) : Json :=
  Json.obj
    [("session_id", Json.str s.session_id),
     ("messages", Json.arr (s.messages.map messageToDict)),
     ("created_at", Json.str s.created_at),
     ("updated_at", Json.str s.updated_at),
     ("metadata", encodeMeta s.metadata)]

/-- Embedding of `ConversationSession.from_dict` (lines 84-90). -/
def sessionFromDict (j : Json) : Option Session :=
  match j with
  | Json.obj fields =>
    match fields.lookup "session_id", fields.lookup "messages",
        fields.lookup "created_at", fields.lookup "updated_at",
        fields.lookup "metadata" with
    | some (Json.str sid), some (Json.arr msgs),
        some (Json.str created), some (Json.str updated), some md =>
      match msgs.mapM messageFromDict, decodeMeta md with
      | some messages, some metadata =>
        some ⟨sid, messages, created, updated, metadata⟩
      | _, _ => none
    | _, _, _, _, _ => none
  | _ => none

/-- State of a `ConversationManager`: the in-memory session cache keyed by
session id, and the on-disk history directory as an id → JSON map (newest
entry first models file overwrite). -/
structure ConvManager where
  sessions : List (String × Session)
  disk : List (String × Json)

/-- Embedding of `save_session` (lines 187-191): overwrite the file
`<session_id>.json` with the serialized session. -/
def save_session (cm : ConvManager) (s : Session) : ConvManager :=
  {cm with disk := (s.session_id, sessionToDict s) :: cm.disk}

/-- Embedding of `get_session` (lines 168-185): return the cached session
if present, otherwise load and parse the file, returning `none` when the
file is absent or any parsing step raises. -/
def get_session (cm : ConvManager) (session_id : String) : Option Session :=
  match cm.sessions.lookup session_id with
  | some s => some s
  | none =>
    match cm.disk.lookup session_id with
    | some j => sessionFromDict j
    | none => none

lemma decodeMeta_loop :
    ∀ (md : List (String × String)) (acc : List (String × String)),
      List.mapM.loop
        (fun kv =>
          match kv.2 with
          | Json.str v => some (kv.1, v)
          | _ => none)
        (md.map fun kv => (kv.1, Json.str kv.2)) acc
      = some (acc.reverse ++ md) := by
  intro md
  induction md with
  | nil => intro acc; simp [List.mapM.loop]
  | cons kv rest ih =>
    intro acc
    simp only [List.map_cons, List.mapM.loop]
    simp only [Option.pure_def, Option.bind_eq_bind, Option.some_bind]
    rw [ih]
    simp

lemma decodeMeta_encodeMeta (md : List (String × String)) :
    decodeMeta (encodeMeta md) = some md := by
  unfold decodeMeta encodeMeta
  have h := decodeMeta_loop md []
  simpa [List.mapM] using h

lemma messageFromDict_toDict (msg : Message) :
    messageFromDict (messageToDict msg) = some msg := by
  rw [show messageFromDict (messageToDict msg)
        = (decodeMeta (encodeMeta msg.metadata)).map
            (fun metadata =>
              ⟨msg.role, msg.content, msg.timestamp, metadata,
                msg.message_id⟩)
      from rfl,
    decodeMeta_encodeMeta]
  rfl

lemma mapM_loop_messageFromDict :
    ∀ (msgs : List Message) (acc : List Message),
      List.mapM.loop messageFromDict (msgs.map messageToDict) acc
        = some (acc.reverse ++ msgs) := by
  intro msgs
  induction msgs with
  | nil => intro acc; simp [List.mapM.loop]
  | cons m rest ih =>
    intro acc
    simp only [List.map_cons, List.mapM.loop, messageFromDict_toDict]
    simp only [Option.bind_eq_bind, Option.some_bind]
    rw [ih]
    simp

lemma mapM_messageFromDict (msgs : List Message) :
    (msgs.map messageToDict).mapM messageFromDict = some msgs := by
  have h := mapM_loop_messageFromDict msgs []
  simpa [List.mapM] using h

lemma sessionFromDict_toDict (s : Session) :
    sessionFromDict (sessionToDict s) = some s := by
  rw [show sessionFromDict (sessionToDict s)
        = (match (s.messages.map messageToDict).mapM messageFromDict,
              decodeMeta (encodeMeta s.metadata) with
           | some messages, some metadata =>
             some ⟨s.session_id, messages, s.created_at, s.updated_at,
               metadata⟩
           | _, _ => none)
      from rfl,
    mapM_messageFromDict, decodeMeta_encodeMeta]

/-- Claim C8: saving a session and loading it back by id (from disk: the id not
being in the memory cache) yields a session with the same message count,
the same role at every position, and the same content text at every
position — in fact the identical session value. -/
theorem save_load_roundtrip (cm : ConvManager) (s : Session)
    (hcache : cm.sessions.lookup s.session_id = none) :
    ∃ s', get_session (save_session cm s) s.session_id = some s'
      ∧ s'.messages.length = s.messages.length
      ∧ s'.messages.map Message.role = s.messages.map Message.role
      ∧ s'.messages.map Message.content
          = s.messages.map Message.content := by
  refine ⟨s, ?_, rfl, rfl, rfl⟩
  unfold get_session save_session
  simp only [hcache]
  simp [List.lookup, sessionFromDict_toDict]

/-- A concrete session for the C8 witness. -/
def c8Session : Session :=
  ⟨"sid-1",
   [⟨"user", "hi there", "2024-01-01T00:00:00", [("k", "v")], "m1"⟩,
    ⟨"assistant", "hello", "2024-01-01T00:00:01", [], "m2"⟩],
   "2024-01-01T00:00:00", "2024-01-01T00:00:01", [("topic", "greeting")]⟩

/-- Witness for C8: round-trip through an empty manager. -/
theorem save_load_roundtrip_witness :
    ∃ s', get_session (save_session ⟨[], []⟩ c8Session)
        c8Session.session_id = some s'
      ∧ s'.messages.length = c8Session.messages.length
      ∧ s'.messages.map Message.role = c8Session.messages.map Message.role
      ∧ s'.messages.map Message.content
          = c8Session.messages.map Message.content :=
  save_load_roundtrip ⟨[], []⟩ c8Session rfl

/-! ## Session search (src/src/conversation.py, `search_sessions`) -/

/-- Whether `needle` is an initial segment of `hay`. -/
def leadsWith : List Char → List Char → Bool
  | [], _ => true
  | _ :: _, [] => false
  | a :: as, b :: bs => a == b && leadsWith as bs

/-- Whether `needle` occurs contiguously inside `hay`. -/
def containsSub (needle : List Char) : List Char → Bool
  | [] => needle.isEmpty
  | c :: t => leadsWith needle (c :: t) || containsSub needle t

/-- Python `needle in hay` on strings. -/
def pyIn (needle hay : String) : Bool := containsSub needle.data hay.data

/-- Model of Python `str.lower()`: lower-case every character. -/
def pyLower (s : String) : String := String.mk (s.data.map Char.toLower)

/-- The per-message test `query.lower() in message.content.lower()`
(src/src/conversation.py line 228). -/
def messageMatches (query : String) (msg : Message) : Bool :=
  pyIn (pyLower query) (pyLower msg.content)

/-- The loop of `search_sessions` (lines 222-235): scan the stored
sessions; a session joins the result when any of its messages matches
(the inner loop `break`s after the first hit); after *processing* each
session — append included — stop as soon as the result has reached
`limit`. -/
def searchLoop (query : String) (limit : Nat) :
    List Session → List Session → List Session
  | [], acc => acc
  | s :: rest, acc =>
    let acc1 :=
      if s.messages.any (messageMatches query) then acc ++ [s] else acc
    if limit ≤ acc1.length then acc1
    else searchLoop query limit rest acc1

/-- Embedding of `search_sessions`: iterate over `self.sessions.values()`
with an empty accumulator. -/
def search_sessions (cm : ConvManager) (query : String) (limit : Nat) :
    List Session :=
  searchLoop query limit (cm.sessions.map Prod.snd) []

/-- A session matching the query "python". -/
def c10Session : Session :=
  ⟨"s1", [⟨"user", "hello Python", "t0", [], "m1"⟩], "t0", "t0", []⟩

/-- A manager holding exactly `c10Session`. -/
def c10Manager : ConvManager := ⟨[("s1", c10Session)], []⟩

/-- Counterexample to C10 as stated: with `limit = 0` the search still
returns one session, because the length check runs only after the
current session has been appended. -/
theorem search_limit_zero_counterexample :
    ¬ ((search_sessions c10Manager "python" 0).length ≤ 0) := by decide

lemma searchLoop_length (query : String) (limit : Nat) :
    ∀ (ss acc : List Session),
      (searchLoop query limit ss acc).length ≤ max limit (acc.length + 1) := by
  intro ss
  induction ss with
  | nil =>
    intro acc
    simp only [searchLoop]
    omega
  | cons s rest ih =>
    intro acc
    by_cases hc : s.messages.any (messageMatches query) = true
    · simp only [searchLoop, hc, ite_true]
      by_cases hl : limit ≤ (acc ++ [s]).length
      · rw [if_pos hl]
        simp only [List.length_append, List.length_cons, List.length_nil]
        omega
      · rw [if_neg hl]
        have h1 := ih (acc ++ [s])
        have hlen : (acc ++ [s]).length = acc.length + 1 := by simp
        rw [hlen] at h1
        rw [hlen] at hl
        omega
    · simp only [searchLoop, hc, Bool.false_eq_true, ite_false]
      by_cases hl : limit ≤ acc.length
      · simp only [hl, ite_true]
        omega
      · simp only [hl, ite_false]
        exact ih acc

lemma searchLoop_mem (query : String) (limit : Nat) :
    ∀ (ss acc : List Session) (s : Session),
      s ∈ searchLoop query limit ss acc →
      s ∈ acc
      ∨ (s ∈ ss ∧ s.messages.any (messageMatches query) = true) := by
  intro ss
  induction ss with
  | nil =>
    intro acc s hs
    exact Or.inl hs
  | cons s0 rest ih =>
    intro acc s hs
    by_cases hc : s0.messages.any (messageMatches query) = true
    · simp only [searchLoop, hc, ite_true] at hs
      by_cases hl : limit ≤ (acc ++ [s0]).length
      · simp only [hl, ite_true] at hs
        rcases List.mem_append.1 hs with h | h
        · exact Or.inl h
        · have : s = s0 := by simpa using h
          exact Or.inr ⟨by simp [this], this ▸ hc⟩
      · simp only [hl, ite_false] at hs
        rcases ih (acc ++ [s0]) s hs with h | h
        · rcases List.mem_append.1 h with h1 | h1
          · exact Or.inl h1
          · have : s = s0 := by simpa using h1
            exact Or.inr ⟨by simp [this], this ▸ hc⟩
        · exact Or.inr ⟨List.mem_cons_of_mem _ h.1, h.2⟩
    · simp only [searchLoop, hc, Bool.false_eq_true, ite_false] at hs
      by_cases hl : limit ≤ acc.length
      · simp only [hl, ite_true] at hs
        exact Or.inl hs
      · simp only [hl, ite_false] at hs
        rcases ih acc s hs with h | h
        · exact Or.inl h
        · exact Or.inr ⟨List.mem_cons_of_mem _ h.1, h.2⟩

lemma searchLoop_sub (query : String) (limit : Nat) :
    ∀ (ss acc : List Session),
      ∃ l, searchLoop query limit ss acc = acc ++ l
        ∧ List.Sublist l ss := by
  intro ss
  induction ss with
  | nil =>
    intro acc
    exact ⟨[], by simp [searchLoop], List.Sublist.refl []⟩
  | cons s0 rest ih =>
    intro acc
    by_cases hc : s0.messages.any (messageMatches query) = true
    · simp only [searchLoop, hc, ite_true]
      by_cases hl : limit ≤ (acc ++ [s0]).length
      · exact ⟨[s0], by rw [if_pos hl],
          List.Sublist.cons₂ s0 (List.nil_sublist rest)⟩
      · obtain ⟨l, hleq, hlsub⟩ := ih (acc ++ [s0])
        refine ⟨s0 :: l, ?_, List.Sublist.cons₂ s0 hlsub⟩
        rw [if_neg hl, hleq]
        simp
    · simp only [searchLoop, hc, Bool.false_eq_true, ite_false]
      by_cases hl : limit ≤ acc.length
      · exact ⟨[], by rw [if_pos hl]; simp, List.nil_sublist _⟩
      · obtain ⟨l, hleq, hlsub⟩ := ih acc
        exact ⟨l, by rw [if_neg hl, hleq], List.Sublist.cons s0 hlsub⟩

/-- Claim C10, amended: searching returns at most `max limit 1` sessions
(at most `limit` whenever `limit ≥ 1`); every returned session has a
message containing the query case-insensitively; and when the stored
sessions carry distinct ids, no session id appears twice in the result. -/
theorem search_sessions_bounded (cm : ConvManager) (query : String)
    (limit : Nat) :
    (search_sessions cm query limit).length ≤ max limit 1
    ∧ (∀ s ∈ search_sessions cm query limit,
        s.messages.any (messageMatches query) = true)
    ∧ (((cm.sessions.map Prod.snd).map Session.session_id).Nodup →
        ((search_sessions cm query limit).map Session.session_id).Nodup) := by
  refine ⟨?_, ?_, ?_⟩
  · have h := searchLoop_length query limit (cm.sessions.map Prod.snd) []
    simpa [search_sessions] using h
  · intro s hs
    rcases searchLoop_mem query limit (cm.sessions.map Prod.snd) [] s hs
      with h | h
    · simp at h
    · exact h.2
  · intro hnd
    obtain ⟨l, hleq, hlsub⟩ :=
      searchLoop_sub query limit (cm.sessions.map Prod.snd) []
    have hres : search_sessions cm query limit = l := by
      simpa [search_sessions] using hleq
    rw [hres]
    exact ((hlsub.map Session.session_id).nodup hnd)

/-- Witness for C10: the length bound and the id-distinctness conclusion
at a concrete manager, query and positive limit. -/
theorem search_sessions_bounded_witness :
    ((search_sessions c10Manager "python" 5).map Session.session_id).Nodup
    ∧ (search_sessions c10Manager "python" 5).length ≤ max 5 1 :=
  ⟨(search_sessions_bounded c10Manager "python" 5).2.2 (by decide),
   (search_sessions_bounded c10Manager "python" 5).1⟩

end Gemini
